import Mathlib

/-!
Shallow embedding of `src/GameOfLifePythonMultiproc.py`.

Modelling conventions:
* Python lists of lists holding the vegetation grid are modelled as total
  functions `ℕ → ℕ → ℤ` updated pointwise (`upd`); the allocated sizes and the
  set of indices the code actually touches are modelled separately for the
  bounds analysis (`gameOfLifeAccessesInBounds`).
* Python `for i in xrange(s, s + n)` loops are modelled by `forRange s n`.
* `rand1` performs its arithmetic on IEEE doubles, but every intermediate
  value is an integer of magnitude below 2^46 (the multiplier is 16807 < 2^15
  and the running seed stays below 2^31 in magnitude), so products and the
  final subtraction are exact, and `int(aa * sseed / mm)` equals truncation
  toward zero of the exact quotient: the quotient magnitude is below 16807,
  where a double's ulp is at most 2^-38, while the distance from the exact
  quotient to the nearest integer it could incorrectly cross is at least
  1/2147483647 > 2^-39 ... in fact the fractional part is a multiple of
  1/2147483647 ≥ 2^-31, far above the rounding error 2^-39.  Hence the loop
  body is exactly integer truncated division/remainder, which is what we
  embed (`Int.tdiv`, matching Python's `int()` rounding toward zero).
* Python floats used only to accumulate integer counts and form final
  ratios (`totalStepsStable`, the percentages) are modelled as `ℚ`; all the
  quantities involved are small integers, where double arithmetic is exact
  up to the final divisions.
* `multiprocessing`: each worker pushes its per-trial results into its own
  queue in order, and `main` drains the queues in worker order after joining,
  so the observable result stream is the concatenation of the workers' result
  lists; the aggregation is modelled on that list.
-/

/-- Source line 13: `MAX_X = 500`. -/
def MAX_X : ℕ := 500

/-- Source line 14: `MAX_Y = 500`. -/
def MAX_Y : ℕ := 500

/-- Source line 15: `STEPS_MAX = 200`. -/
def STEPS_MAX : ℕ := 200

/-- Source line 16: `UNCHANGED_MAX = 10`. -/
def UNCHANGED_MAX : ℕ := 10

/-- A vegetation grid: cell values indexed by (row, column). -/
abbrev Grid : Type := ℕ → ℕ → ℤ

/-- Pointwise update of a grid cell, modelling `g[i][j] = v`. -/
def upd (g : Grid) (i j : ℕ) (v : ℤ) : Grid :=
  fun a b => if a = i ∧ b = j then v else g a b

/-- Iterate a stateful body over `x = s, s+1, ..., s+n-1` in order, modelling
`for x in xrange(s, s+n)`. -/
def forRange {α : Type} (s n : ℕ) (body : ℕ → α → α) (a : α) : α :=
  match n with
  | 0 => a
  | n + 1 => forRange (s + 1) n body (body s a)

/-- One iteration of the loop body of `rand1` (source lines 208-212):
`sseed := iseed; iseed := int(aa*sseed/mm); sseed := aa*sseed - mm*iseed`.
The float arithmetic is exact here (see the header note), so the body is
truncated division and remainder. -/
def prngStep (iseed : ℤ) : ℤ :=
  let sseed := iseed
  let q := Int.tdiv (16807 * sseed) 2147483647
  16807 * sseed - 2147483647 * q

/-- The integer value held in `sseed` when the `rand1` loop (5 iterations)
finishes. -/
def rand1Int (iseed : ℤ) : ℤ :=
  prngStep (prngStep (prngStep (prngStep (prngStep iseed))))

/-- Source lines 203-214: `rand1(iseed)`, returning `sseed / mm`. -/
def rand1 (iseed : ℤ) : ℚ :=
  (rand1Int iseed : ℚ) / 2147483647

/-- Source lines 65-79: `initializeGrid(grid, nx, ny, seed, prob)`.  For each
interior cell `(i,j)` with `1 ≤ i ≤ nx`, `1 ≤ j ≤ ny`, sets the cell to 0 when
`rand1(seed + ny*i + j) > prob` and to 1 otherwise. -/
def initializeGrid (grid : Grid) (nx ny : ℕ) (seed : ℤ) (prob : ℚ) : Grid :=
  forRange 1 nx (fun i g =>
    forRange 1 ny (fun j g' =>
      let index : ℕ := ny * i + j
      let newSeed : ℤ := seed + index
      if rand1 newSeed > prob then upd g' i j 0 else upd g' i j 1) g) grid

/-- Source lines 115-117: total interior vegetation
`for i in 1..nx: for j in 1..ny: vegies += grid[i][j]`. -/
def countVegies (g : Grid) (nx ny : ℕ) : ℤ :=
  forRange 1 nx (fun i v =>
    forRange 1 ny (fun j v' => v' + g i j) v) 0

/-- Source lines 149-151: copy the left/right columns to the ghost columns,
`grid[i][0] = grid[i][ny]; grid[i][ny+1] = grid[i][1]` for `i in 1..nx`. -/
def wrapRows (g : Grid) (nx ny : ℕ) : Grid :=
  forRange 1 nx (fun i g' =>
    let g1 := upd g' i 0 (g' i ny)
    upd g1 i (ny + 1) (g1 i 1)) g

/-- Source lines 153-155: copy the top/bottom rows to the ghost rows,
`grid[0][j] = grid[nx][j]; grid[nx+1][j] = grid[1][j]` for `j in 0..ny+1`. -/
def wrapCols (g : Grid) (nx ny : ℕ) : Grid :=
  forRange 0 (ny + 2) (fun j g' =>
    let g1 := upd g' 0 j (g' nx j)
    upd g1 (nx + 1) j (g1 1 j)) g

/-- Source lines 159-183: one time step computed into `tempGrid` from the
(ghost-padded) grid `g`. -/
def computeTempGrid (g temp : Grid) (nx ny : ℕ) : Grid :=
  forRange 1 nx (fun i t =>
    forRange 1 ny (fun j t' =>
      let neighbors := g (i-1) (j-1) + g (i-1) j + g (i-1) (j+1) + g i (j-1)
        + g i (j+1) + g (i+1) (j-1) + g (i+1) j + g (i+1) (j+1)
      let t1 := upd t' i j (g i j)
      if 25 ≤ neighbors ∨ neighbors ≤ 3 then
        let t2 := upd t1 i j (t1 i j - 1)
        if t2 i j < 0 then upd t2 i j 0 else t2
      else if neighbors ≤ 15 then
        let t2 := upd t1 i j (t1 i j + 1)
        if 10 < t2 i j then upd t2 i j 10 else t2
      else t1) t) temp

/-- Source lines 186-188: copy `tempGrid` back into `grid` on the interior. -/
def copyBack (g temp : Grid) (nx ny : ℕ) : Grid :=
  forRange 1 nx (fun i g' =>
    forRange 1 ny (fun j g'' => upd g'' i j (temp i j)) g') g

/-- The local state of `gameOfLife`'s while loop (source lines 96-110). -/
structure GLState where
  steps : ℕ
  converged : Bool
  nUnchanged : ℕ
  oldVegies : ℤ
  old2Vegies : ℤ
  old3Vegies : ℤ
  vegies : ℤ
  grid : Grid
  tempGrid : Grid

/-- One iteration of the while-loop body of `gameOfLife`
(source lines 110-190). -/
def glBody (nx ny maxUnchanged : ℕ) (s : GLState) : GLState :=
  let vegies := countVegies s.grid nx ny
  let matched := vegies = s.oldVegies ∨ vegies = s.old2Vegies ∨ vegies = s.old3Vegies
  let nUnchanged := if matched then s.nUnchanged + 1 else 0
  let converged :=
    if matched then (if maxUnchanged ≤ s.nUnchanged + 1 then true else s.converged)
    else s.converged
  if converged then
    { steps := s.steps, converged := converged, nUnchanged := nUnchanged,
      oldVegies := vegies, old2Vegies := s.oldVegies, old3Vegies := s.old2Vegies,
      vegies := vegies, grid := s.grid, tempGrid := s.tempGrid }
  else
    let g2 := wrapCols (wrapRows s.grid nx ny) nx ny
    let temp := computeTempGrid g2 s.tempGrid nx ny
    let g3 := copyBack g2 temp nx ny
    { steps := s.steps + 1, converged := converged, nUnchanged := nUnchanged,
      oldVegies := vegies, old2Vegies := s.oldVegies, old3Vegies := s.old2Vegies,
      vegies := vegies, grid := g3, tempGrid := temp }

/-- The while loop of `gameOfLife` (source line 110), with explicit fuel.
Each executed iteration either increments `steps` (strictly bounded by
`maxSteps` in the guard) or sets `converged` (after which the guard fails),
so `maxSteps + 1` units of fuel always outlast the loop. -/
def glLoop (nx ny maxSteps maxUnchanged : ℕ) : ℕ → GLState → GLState
  | 0, s => s
  | fuel + 1, s =>
    if s.converged = false ∧ 0 < s.vegies ∧ s.steps < maxSteps then
      glLoop nx ny maxSteps maxUnchanged fuel (glBody nx ny maxUnchanged s)
    else s

/-- Source lines 96-192: `gameOfLife`, returning the whole final loop state
(the Python function mutates `grid` in place; the caller `worker` reuses it). -/
def gameOfLifeFull (grid : Grid) (nx ny maxSteps maxUnchanged : ℕ) : GLState :=
  glLoop nx ny maxSteps maxUnchanged (maxSteps + 1)
    { steps := 1, converged := false, nUnchanged := 0, oldVegies := -1,
      old2Vegies := -1, old3Vegies := -1, vegies := 1,
      grid := grid, tempGrid := fun _ _ => 0 }

/-- Source line 192: the `(steps, vegies)` pair `gameOfLife` returns. -/
def gameOfLife (grid : Grid) (nx ny maxSteps maxUnchanged : ℕ) : ℕ × ℤ :=
  ((gameOfLifeFull grid nx ny maxSteps maxUnchanged).steps,
   (gameOfLifeFull grid nx ny maxSteps maxUnchanged).vegies)

/-- Source lines 38-50: `worker`.  Runs `mySims` simulations, reusing one grid
buffer (initially all zeros), with per-trial seed
`seed0 * ((myProcess * mySims) - i)`; returns the queued results in order. -/
def worker (nx ny maxSteps maxUnchanged : ℕ) (prob : ℚ) (seed0 : ℤ)
    (mySims myProcess : ℕ) : List (ℕ × ℤ) :=
  (forRange 0 mySims (fun i acc =>
    let seed : ℤ := seed0 * ((myProcess : ℤ) * (mySims : ℤ) - (i : ℤ))
    let g := initializeGrid acc.1 nx ny seed prob
    let st := gameOfLifeFull g nx ny maxSteps maxUnchanged
    (st.grid, acc.2 ++ [(st.steps, st.vegies)]))
    ((fun _ _ => 0 : Grid), ([] : List (ℕ × ℤ)))).2

/-- The counters and accumulators of `main` (source lines 229-234). -/
structure RunTotals where
  ndied : ℕ
  nunsettled : ℕ
  nstable : ℕ
  totalStepsStable : ℚ
  totalVegiesStable : ℚ
deriving DecidableEq

/-- Source lines 296-305: classify one drained result and update the
counters. -/
def recordResult (maxSteps : ℕ) (t : RunTotals) (r : ℕ × ℤ) : RunTotals :=
  if r.2 = 0 then { t with ndied := t.ndied + 1 }
  else if maxSteps ≤ r.1 then { t with nunsettled := t.nunsettled + 1 }
  else
    { t with
      nstable := t.nstable + 1
      totalStepsStable := t.totalStepsStable + (r.1 : ℚ)
      totalVegiesStable := t.totalVegiesStable + (r.2 : ℚ) }

/-- All-zero initial counters. -/
def initialTotals : RunTotals := ⟨0, 0, 0, 0, 0⟩

/-- The per-trial results `main` drains, in order: worker `i+1`'s queue
contents for `i = 0, ..., numProcesses-1`, each worker running
`nsims // numProcesses` trials (source lines 265-292). -/
def mainResults (nx ny maxSteps maxUnchanged : ℕ) (prob : ℚ) (seed0 : ℤ)
    (nsims numProcesses : ℕ) : List (ℕ × ℤ) :=
  let simsPerProcess := nsims / numProcesses
  (List.range numProcesses).foldl
    (fun acc i => acc ++ worker nx ny maxSteps maxUnchanged prob seed0 simsPerProcess (i + 1))
    []

/-- Source lines 282-305: the counters after `main` has drained and
classified every worker result. -/
def mainAgg (nx ny maxSteps maxUnchanged : ℕ) (prob : ℚ) (seed0 : ℤ)
    (nsims numProcesses : ℕ) : RunTotals :=
  (mainResults nx ny maxSteps maxUnchanged prob seed0 nsims numProcesses).foldl
    (recordResult maxSteps) initialTotals

/-- Source lines 309-311: divide the stable accumulators by `nstable` only
when `nstable > 0`, otherwise leave them as accumulated. -/
def stableAverages (t : RunTotals) : ℚ × ℚ :=
  if 0 < t.nstable then (t.totalStepsStable / (t.nstable : ℚ), t.totalVegiesStable / (t.nstable : ℚ))
  else (t.totalStepsStable, t.totalVegiesStable)

/-- Source lines 315-320: the reported aggregate record
(percentDied, percentUnsettled, percentStabilized, avgSteps, avgVegetation).
Percentages are `100.0 * count / nsims` with the original `nsims`. -/
def mainStats (nx ny maxSteps maxUnchanged : ℕ) (prob : ℚ) (seed0 : ℤ)
    (nsims numProcesses : ℕ) : ℚ × ℚ × ℚ × ℚ × ℚ :=
  let t := mainAgg nx ny maxSteps maxUnchanged prob seed0 nsims numProcesses
  let avgs := stableAverages t
  (100 * (t.ndied : ℚ) / (nsims : ℚ), 100 * (t.nunsettled : ℚ) / (nsims : ℚ),
   100 * (t.nstable : ℚ) / (nsims : ℚ), avgs.1, avgs.2)

/-- Bounds model for claim C4.  `worker` allocates `grid` with `MAX_Y + 2`
rows of `MAX_X + 2` entries (source line 43) and `gameOfLife` allocates
`tempGrid` with `MAX_Y` rows of `MAX_X` entries (source line 105).  On a run
with dimensions `nx, ny`, `gameOfLife` indexes `grid[i][j]` for all
`0 ≤ i ≤ nx+1`, `0 ≤ j ≤ ny+1` (vegetation count lines 115-117, ghost copies
lines 149-155, neighbor reads lines 161-164, write-back lines 186-188) and
`tempGrid[i][j]` for all `1 ≤ i ≤ nx`, `1 ≤ j ≤ ny` (lines 165-183, 188).
This predicate states that every one of those index pairs is inside the
corresponding allocation. -/
def gameOfLifeAccessesInBounds (nx ny : ℕ) : Prop :=
  (∀ i ≤ nx + 1, i < MAX_Y + 2) ∧ (∀ j ≤ ny + 1, j < MAX_X + 2) ∧
  (∀ i ≤ nx, 1 ≤ i → i < MAX_Y) ∧ (∀ j ≤ ny, 1 ≤ j → j < MAX_X)

instance (nx ny : ℕ) : Decidable (gameOfLifeAccessesInBounds nx ny) := by
  unfold gameOfLifeAccessesInBounds; infer_instance

/-- Spec-side wrap of an extended index `0, ..., n+1` onto the interior range
`1, ..., n` of a toroidal axis: `0 ↦ n`, `n+1 ↦ 1`. -/
def wrapIdx (n a : ℕ) : ℕ :=
  if a = 0 then n else if a = n + 1 then 1 else a

/-- Spec-side 8-neighbour toroidal sum around interior cell `(i,j)`, reading
only interior cells of `g`. -/
def toroidalNeighborSum (g : Grid) (nx ny i j : ℕ) : ℤ :=
  g (wrapIdx nx (i-1)) (wrapIdx ny (j-1)) + g (wrapIdx nx (i-1)) (wrapIdx ny j)
    + g (wrapIdx nx (i-1)) (wrapIdx ny (j+1)) + g (wrapIdx nx i) (wrapIdx ny (j-1))
    + g (wrapIdx nx i) (wrapIdx ny (j+1)) + g (wrapIdx nx (i+1)) (wrapIdx ny (j-1))
    + g (wrapIdx nx (i+1)) (wrapIdx ny j) + g (wrapIdx nx (i+1)) (wrapIdx ny (j+1))

/-- Spec-side update rule of claim C6: decay clamped at 0 when overcrowded or
sparse, growth clamped at 10 at moderate density, unchanged otherwise. -/
def cellRule (v n : ℤ) : ℤ :=
  if 25 ≤ n ∨ n ≤ 3 then max (v - 1) 0
  else if n ≤ 15 then min (v + 1) 10
  else v

/-- The cell value `initializeGrid` writes at interior cell `(i, j)`. -/
def initCellValue (ny : ℕ) (seed : ℤ) (prob : ℚ) (i j : ℕ) : ℤ :=
  if rand1 (seed + (ny * i + j : ℕ)) > prob then 0 else 1

/-- The value the update loop (source lines 159-183) writes into
`tempGrid[i][j]`, as a function of the ghost-padded grid `g`. -/
def updatedCellValue (g : Grid) (i j : ℕ) : ℤ :=
  let neighbors := g (i-1) (j-1) + g (i-1) j + g (i-1) (j+1) + g i (j-1)
    + g i (j+1) + g (i+1) (j-1) + g (i+1) j + g (i+1) (j+1)
  if 25 ≤ neighbors ∨ neighbors ≤ 3 then (if g i j - 1 < 0 then 0 else g i j - 1)
  else if neighbors ≤ 15 then (if 10 < g i j + 1 then 10 else g i j + 1)
  else g i j

/-- A concrete loop state (3x3 all-ones interior) used to witness claim C6. -/
def sampleState : GLState :=
  { steps := 1, converged := false, nUnchanged := 0, oldVegies := -1,
    old2Vegies := -1, old3Vegies := -1, vegies := 1,
    grid := fun a b => if 1 ≤ a ∧ a ≤ 3 ∧ 1 ≤ b ∧ b ≤ 3 then 1 else 0,
    tempGrid := fun _ _ => 0 }

/-- A concrete loop state whose vegetation matches one of the previous
totals, used to witness claim C7. -/
def sampleState2 : GLState :=
  { steps := 5, converged := false, nUnchanged := 2, oldVegies := 9,
    old2Vegies := 8, old3Vegies := 7, vegies := 9,
    grid := fun a b => if 1 ≤ a ∧ a ≤ 3 ∧ 1 ≤ b ∧ b ≤ 3 then 1 else 0,
    tempGrid := fun _ _ => 0 }

set_option maxRecDepth 8000

/-- Reading an updated grid. -/
theorem upd_apply (g : Grid) (i j : ℕ) (v : ℤ) (a b : ℕ) :
    upd g i j v a b = if a = i ∧ b = j then v else g a b := rfl

/-- A loop over column indices whose body writes only the cell `(i, x)` of
row `i`, with a value `F x` independent of the evolving grid, produces the
pointwise-described grid. -/
theorem forRange_row_write (B : ℕ → Grid → Grid) (F : ℕ → ℤ) (i : ℕ)
    (hB : ∀ x t a b, B x t a b = if a = i ∧ b = x then F x else t a b) :
    ∀ n s t a b, forRange s n B t a b =
      if a = i ∧ s ≤ b ∧ b < s + n then F b else t a b := by
  intro n
  induction n with
  | zero =>
    intro s t a b
    rw [forRange]
    split_ifs with h
    · exact absurd h.2.2 (by omega)
    · rfl
  | succ n ih =>
    intro s t a b
    rw [forRange, ih (s + 1) (B s t) a b, hB s t a b]
    by_cases hai : a = i
    · subst hai
      by_cases hbs : b = s
      · subst hbs
        split_ifs <;> first | rfl | omega
      · split_ifs <;> first | rfl | omega
    · split_ifs <;> first | rfl | omega

/-- An outer loop over row indices whose body writes exactly the cells
`(x, b)` with `q ≤ b < q + r` of row `x`, with values `F x b` independent of
the evolving grid, produces the pointwise-described grid. -/
theorem forRange_rect_write (R : ℕ → Grid → Grid) (F : ℕ → ℕ → ℤ) (q r : ℕ)
    (hR : ∀ x t a b, R x t a b = if a = x ∧ q ≤ b ∧ b < q + r then F x b else t a b) :
    ∀ n s t a b, forRange s n R t a b =
      if s ≤ a ∧ a < s + n ∧ q ≤ b ∧ b < q + r then F a b else t a b := by
  intro n
  induction n with
  | zero =>
    intro s t a b
    rw [forRange]
    split_ifs with h
    · exact absurd h.2.1 (by omega)
    · rfl
  | succ n ih =>
    intro s t a b
    rw [forRange, ih (s + 1) (R s t) a b, hR s t a b]
    by_cases has : a = s
    · subst has
      split_ifs <;> first | rfl | omega
    · split_ifs <;> first | rfl | omega

/-- Pointwise description of `initializeGrid`: interior cells get
`initCellValue`, all other cells keep their previous contents. -/
theorem initializeGrid_apply (g : Grid) (nx ny : ℕ) (seed : ℤ) (prob : ℚ) (a b : ℕ) :
    initializeGrid g nx ny seed prob a b =
      if 1 ≤ a ∧ a < 1 + nx ∧ 1 ≤ b ∧ b < 1 + ny
      then initCellValue ny seed prob a b else g a b := by
  have hrow : ∀ i t a b,
      forRange 1 ny (fun j g' =>
        let index : ℕ := ny * i + j
        let newSeed : ℤ := seed + index
        if rand1 newSeed > prob then upd g' i j 0 else upd g' i j 1) t a b =
      if a = i ∧ 1 ≤ b ∧ b < 1 + ny then initCellValue ny seed prob i b else t a b := by
    intro i t a b
    refine forRange_row_write _ (fun b => initCellValue ny seed prob i b) i ?_ ny 1 t a b
    intro x t' a' b'
    dsimp only
    simp only [initCellValue]
    split_ifs <;> simp_all [upd_apply]
  exact forRange_rect_write _ (fun a b => initCellValue ny seed prob a b) 1 ny hrow nx 1 g a b

/-- Pointwise description of `copyBack`: interior cells take the values of
`temp`, all other cells keep their previous contents. -/
theorem copyBack_apply (g temp : Grid) (nx ny : ℕ) (a b : ℕ) :
    copyBack g temp nx ny a b =
      if 1 ≤ a ∧ a < 1 + nx ∧ 1 ≤ b ∧ b < 1 + ny then temp a b else g a b := by
  have hrow : ∀ i t a b,
      forRange 1 ny (fun j g'' => upd g'' i j (temp i j)) t a b =
      if a = i ∧ 1 ≤ b ∧ b < 1 + ny then temp i b else t a b := by
    intro i t a b
    refine forRange_row_write _ (fun b => temp i b) i ?_ ny 1 t a b
    intro x t' a' b'
    rw [upd_apply]
  exact forRange_rect_write _ (fun a b => temp a b) 1 ny hrow nx 1 g a b

/-- Pointwise description of `computeTempGrid`: interior cells get
`updatedCellValue g`, all other cells keep their previous contents. -/
theorem computeTempGrid_apply (g temp : Grid) (nx ny : ℕ) (a b : ℕ) :
    computeTempGrid g temp nx ny a b =
      if 1 ≤ a ∧ a < 1 + nx ∧ 1 ≤ b ∧ b < 1 + ny
      then updatedCellValue g a b else temp a b := by
  have hrow : ∀ i t a b,
      forRange 1 ny (fun j t' =>
        let neighbors := g (i-1) (j-1) + g (i-1) j + g (i-1) (j+1) + g i (j-1)
          + g i (j+1) + g (i+1) (j-1) + g (i+1) j + g (i+1) (j+1)
        let t1 := upd t' i j (g i j)
        if 25 ≤ neighbors ∨ neighbors ≤ 3 then
          let t2 := upd t1 i j (t1 i j - 1)
          if t2 i j < 0 then upd t2 i j 0 else t2
        else if neighbors ≤ 15 then
          let t2 := upd t1 i j (t1 i j + 1)
          if 10 < t2 i j then upd t2 i j 10 else t2
        else t1) t a b =
      if a = i ∧ 1 ≤ b ∧ b < 1 + ny then updatedCellValue g i b else t a b := by
    intro i t a b
    refine forRange_row_write _ (fun b => updatedCellValue g i b) i ?_ ny 1 t a b
    intro x t' a' b'
    dsimp only
    simp only [ite_apply, upd_apply, updatedCellValue, and_self, eq_self_iff_true,
      if_true, true_and, ite_self]
    by_cases hab : a' = i ∧ b' = x
    · obtain ⟨rfl, rfl⟩ := hab
      simp only [and_self, eq_self_iff_true, if_true, true_and, ite_self]
    · simp only [hab, if_false, ite_self]
  exact forRange_rect_write _ (fun a b => updatedCellValue g a b) 1 ny hrow nx 1 temp a b

/-- Pointwise description of the ghost-column copy loop of `wrapRows`,
generalized over the loop bounds. -/
theorem wrapRows_gen (g0 : Grid) (ny : ℕ) (hny : 1 ≤ ny) :
    ∀ n s t a b, forRange s n (fun i g' =>
        let g1 := upd g' i 0 (g' i ny)
        upd g1 i (ny + 1) (g1 i 1)) t a b =
      if s ≤ a ∧ a < s + n ∧ b = 0 then t a ny
      else if s ≤ a ∧ a < s + n ∧ b = ny + 1 then t a 1
      else t a b := by
  intro n
  induction n with
  | zero =>
    intro s t a b
    rw [forRange]
    split_ifs <;> first | rfl | omega
  | succ n ih =>
    intro s t a b
    rw [forRange, ih (s + 1) _ a b]
    simp only [upd_apply]
    by_cases has : a = s
    · subst has
      by_cases hb0 : b = 0
      · subst hb0
        split_ifs <;> first | rfl | omega | simp_all
      · by_cases hbn : b = ny + 1
        · subst hbn
          split_ifs <;> first | rfl | omega | simp_all
        · split_ifs <;> first | rfl | omega | simp_all
    · split_ifs <;> first | rfl | omega | simp_all

/-- Pointwise description of `wrapRows` (source lines 149-151). -/
theorem wrapRows_apply (g : Grid) (nx ny : ℕ) (hny : 1 ≤ ny) (a b : ℕ) :
    wrapRows g nx ny a b =
      if 1 ≤ a ∧ a < 1 + nx ∧ b = 0 then g a ny
      else if 1 ≤ a ∧ a < 1 + nx ∧ b = ny + 1 then g a 1
      else g a b :=
  wrapRows_gen g ny hny nx 1 g a b

/-- Pointwise description of the ghost-row copy loop of `wrapCols`,
generalized over the loop bounds. -/
theorem wrapCols_gen (g0 : Grid) (nx : ℕ) (hnx : 1 ≤ nx) :
    ∀ n s t a b, forRange s n (fun j g' =>
        let g1 := upd g' 0 j (g' nx j)
        upd g1 (nx + 1) j (g1 1 j)) t a b =
      if a = 0 ∧ s ≤ b ∧ b < s + n then t nx b
      else if a = nx + 1 ∧ s ≤ b ∧ b < s + n then t 1 b
      else t a b := by
  intro n
  induction n with
  | zero =>
    intro s t a b
    rw [forRange]
    split_ifs <;> first | rfl | omega
  | succ n ih =>
    intro s t a b
    rw [forRange, ih (s + 1) _ a b]
    simp only [upd_apply]
    by_cases hbs : b = s
    · subst hbs
      by_cases ha0 : a = 0
      · subst ha0
        split_ifs <;> first | rfl | omega | simp_all
      · by_cases han : a = nx + 1
        · subst han
          split_ifs <;> first | rfl | omega | simp_all
        · split_ifs <;> first | rfl | omega | simp_all
    · split_ifs <;> first | rfl | omega | simp_all

/-- Pointwise description of `wrapCols` (source lines 153-155). -/
theorem wrapCols_apply (g : Grid) (nx ny : ℕ) (hnx : 1 ≤ nx) (a b : ℕ) :
    wrapCols g nx ny a b =
      if a = 0 ∧ b < ny + 2 then g nx b
      else if a = nx + 1 ∧ b < ny + 2 then g 1 b
      else g a b := by
  have h2 : (if a = 0 ∧ 0 ≤ b ∧ b < 0 + (ny + 2) then g nx b
      else if a = nx + 1 ∧ 0 ≤ b ∧ b < 0 + (ny + 2) then g 1 b else g a b) =
      (if a = 0 ∧ b < ny + 2 then g nx b
      else if a = nx + 1 ∧ b < ny + 2 then g 1 b else g a b) := by
    split_ifs <;> first | rfl | omega
  exact (wrapCols_gen g nx hnx (ny + 2) 0 g a b).trans h2

/-- After both ghost copies, every cell of the padded index range reads the
interior cell of the original grid given by toroidal wrapping. -/
theorem wrapGhost_apply (g : Grid) (nx ny : ℕ) (hnx : 1 ≤ nx) (hny : 1 ≤ ny)
    (a b : ℕ) (ha : a ≤ nx + 1) (hb : b ≤ ny + 1) :
    wrapCols (wrapRows g nx ny) nx ny a b = g (wrapIdx nx a) (wrapIdx ny b) := by
  rw [wrapCols_apply _ nx ny hnx a b]
  simp only [wrapRows_apply g nx ny hny, wrapIdx]
  split_ifs <;> first | rfl | omega

/-- The `rand1` loop body is the truncating remainder by `2147483647`. -/
theorem prngStep_eq_tmod (x : ℤ) :
    prngStep x = Int.tmod (16807 * x) 2147483647 := by
  rw [prngStep, Int.tmod_def]

/-- Truncating remainder of a negated dividend. -/
theorem neg_tmod_eq (a b : ℤ) : Int.tmod (-a) b = -Int.tmod a b := by
  rw [Int.tmod_def, Int.tmod_def, Int.neg_tdiv]; ring

/-- Two-sided bound on one `rand1` iteration: the running value stays
strictly between `-2147483647` and `2147483647`. -/
theorem prngStep_bounds (x : ℤ) :
    -2147483647 < prngStep x ∧ prngStep x < 2147483647 := by
  rw [prngStep_eq_tmod]
  refine ⟨?_, Int.tmod_lt_of_pos _ (by norm_num)⟩
  rcases le_or_lt 0 (16807 * x) with h | h
  · have := Int.tmod_nonneg (2147483647 : ℤ) h
    omega
  · have h2 : Int.tmod (16807 * x) 2147483647
        = -Int.tmod (-(16807 * x)) 2147483647 := by
      rw [neg_tmod_eq, neg_neg]
    have h3 := Int.tmod_lt_of_pos (-(16807 * x)) (show (0:ℤ) < 2147483647 by norm_num)
    omega

/-- Two-sided bound on the final `sseed` of `rand1`. -/
theorem rand1Int_bounds (x : ℤ) :
    -2147483647 < rand1Int x ∧ rand1Int x < 2147483647 := by
  rw [rand1Int]; exact prngStep_bounds _

/-- One `rand1` iteration preserves nonnegativity. -/
theorem prngStep_nonneg {x : ℤ} (h : 0 ≤ x) : 0 ≤ prngStep x := by
  rw [prngStep_eq_tmod]
  exact Int.tmod_nonneg _ (by positivity)

/-- The final `sseed` of `rand1` is nonnegative for a nonnegative seed. -/
theorem rand1Int_nonneg {x : ℤ} (h : 0 ≤ x) : 0 ≤ rand1Int x := by
  rw [rand1Int]
  exact prngStep_nonneg (prngStep_nonneg (prngStep_nonneg (prngStep_nonneg
    (prngStep_nonneg h))))

/-- On nonnegative inputs the truncating remainder is the Euclidean one. -/
theorem prngStep_eq_emod {x : ℤ} (h : 0 ≤ x) :
    prngStep x = (16807 * x) % 2147483647 := by
  rw [prngStep_eq_tmod, Int.tmod_eq_emod (by positivity) (by norm_num)]

/-- `2147483647` and `16807` are coprime, via an explicit Bezout identity:
`5790 * 2147483647 - 739806647 * 16807 = 1`. -/
theorem m_dvd_of_dvd_mul {x : ℤ} (h : (2147483647:ℤ) ∣ 16807 * x) :
    (2147483647:ℤ) ∣ x := by
  obtain ⟨c, hc⟩ := h
  exact ⟨5790 * x - 739806647 * c, by linear_combination (-739806647 : ℤ) * hc⟩

/-- One `rand1` iteration preserves the range `(0, 2147483647)`. -/
theorem prngStep_pos {x : ℤ} (h1 : 0 < x) (h2 : x < 2147483647) :
    0 < prngStep x ∧ prngStep x < 2147483647 := by
  have hnd : ¬ (2147483647:ℤ) ∣ x := fun hd => absurd (Int.le_of_dvd h1 hd) (by omega)
  have he : prngStep x = (16807 * x) % 2147483647 := prngStep_eq_emod h1.le
  have hub := Int.emod_lt_of_pos (16807 * x) (show (0:ℤ) < 2147483647 by norm_num)
  have hlb := Int.emod_nonneg (16807 * x) (show (2147483647:ℤ) ≠ 0 by norm_num)
  have hnz : (16807 * x) % 2147483647 ≠ 0 := by
    intro h0
    exact hnd (m_dvd_of_dvd_mul (Int.dvd_of_emod_eq_zero h0))
  omega

/-- The final `sseed` of `rand1` is strictly positive for seeds in
`(0, 2147483647)`. -/
theorem rand1Int_pos {x : ℤ} (h1 : 0 < x) (h2 : x < 2147483647) :
    0 < rand1Int x := by
  rw [rand1Int]
  have s1 := prngStep_pos h1 h2
  have s2 := prngStep_pos s1.1 s1.2
  have s3 := prngStep_pos s2.1 s2.2
  have s4 := prngStep_pos s3.1 s3.2
  exact (prngStep_pos s4.1 s4.2).1

/-- `rand1` always returns a value strictly below 1. -/
theorem rand1_lt_one (s : ℤ) : rand1 s < 1 := by
  rw [rand1, div_lt_one (by norm_num)]
  exact_mod_cast (rand1Int_bounds s).2

/-- `rand1` is nonnegative on nonnegative seeds. -/
theorem rand1_nonneg {s : ℤ} (h : 0 ≤ s) : 0 ≤ rand1 s := by
  rw [rand1]
  exact div_nonneg (by exact_mod_cast rand1Int_nonneg h) (by norm_num)

/-- `rand1` is strictly positive on seeds in `(0, 2147483647)`. -/
theorem rand1_pos {s : ℤ} (h1 : 0 < s) (h2 : s < 2147483647) : 0 < rand1 s := by
  rw [rand1]
  exact div_pos (by exact_mod_cast rand1Int_pos h1 h2) (by norm_num)

/-- The convergence flag after one loop body, matching source lines 122-132:
it is raised exactly when the new total matches one of the previous three and
the incremented streak reaches `maxUnchanged` (it stays raised otherwise). -/
theorem glBody_converged_eq (nx ny maxUnchanged : ℕ) (s : GLState) :
    (glBody nx ny maxUnchanged s).converged =
      (if countVegies s.grid nx ny = s.oldVegies
          ∨ countVegies s.grid nx ny = s.old2Vegies
          ∨ countVegies s.grid nx ny = s.old3Vegies
       then (if maxUnchanged ≤ s.nUnchanged + 1 then true else s.converged)
       else s.converged) := by
  simp only [glBody]
  split_ifs <;> rfl

/-- The unchanged-streak counter after one loop body, matching source
lines 122-132. -/
theorem glBody_nUnchanged_eq (nx ny maxUnchanged : ℕ) (s : GLState) :
    (glBody nx ny maxUnchanged s).nUnchanged =
      (if countVegies s.grid nx ny = s.oldVegies
          ∨ countVegies s.grid nx ny = s.old2Vegies
          ∨ countVegies s.grid nx ny = s.old3Vegies
       then s.nUnchanged + 1 else 0) := by
  simp only [glBody]
  split_ifs <;> rfl

/-- When the loop body does not converge, it performs the ghost copies, the
update step into the scratch grid, the copy-back, and increments `steps`. -/
theorem glBody_run (nx ny maxUnchanged : ℕ) (s : GLState)
    (h : (glBody nx ny maxUnchanged s).converged = false) :
    glBody nx ny maxUnchanged s =
      { steps := s.steps + 1, converged := false,
        nUnchanged := (if countVegies s.grid nx ny = s.oldVegies
            ∨ countVegies s.grid nx ny = s.old2Vegies
            ∨ countVegies s.grid nx ny = s.old3Vegies
          then s.nUnchanged + 1 else 0),
        oldVegies := countVegies s.grid nx ny, old2Vegies := s.oldVegies,
        old3Vegies := s.old2Vegies, vegies := countVegies s.grid nx ny,
        grid := copyBack (wrapCols (wrapRows s.grid nx ny) nx ny)
          (computeTempGrid (wrapCols (wrapRows s.grid nx ny) nx ny) s.tempGrid nx ny)
          nx ny,
        tempGrid := computeTempGrid (wrapCols (wrapRows s.grid nx ny) nx ny)
          s.tempGrid nx ny } := by
  have hc := (glBody_converged_eq nx ny maxUnchanged s).symm.trans h
  simp only [glBody, hc, Bool.false_eq_true, if_false]

/-- Unfolding of the while-loop guard (source line 110): with fuel left, the
loop runs its body exactly when `converged` is false, there is vegetation,
and the step cap has not been reached. -/
theorem glLoop_succ (nx ny maxSteps maxUnchanged fuel : ℕ) (s : GLState) :
    glLoop nx ny maxSteps maxUnchanged (fuel + 1) s =
      if s.converged = false ∧ 0 < s.vegies ∧ s.steps < maxSteps then
        glLoop nx ny maxSteps maxUnchanged fuel (glBody nx ny maxUnchanged s)
      else s := rfl

/-- The toroidal wrap always lands in the interior range. -/
theorem wrapIdx_mem (n a : ℕ) (hn : 1 ≤ n) (ha : a ≤ n + 1) :
    1 ≤ wrapIdx n a ∧ wrapIdx n a ≤ n := by
  rw [wrapIdx]
  split_ifs <;> omega

/-- An interior index is fixed by the toroidal wrap. -/
theorem wrapIdx_interior (n a : ℕ) (h1 : 1 ≤ a) (h2 : a ≤ n) :
    wrapIdx n a = a := by
  rw [wrapIdx]
  split_ifs <;> omega

/-- The vegetation count of a grid whose interior is all zeros is zero. -/
theorem countVegies_zero (g : Grid) (nx ny : ℕ)
    (h : ∀ i j, 1 ≤ i → i ≤ nx → 1 ≤ j → j ≤ ny → g i j = 0) :
    countVegies g nx ny = 0 := by
  have hin : ∀ i, 1 ≤ i → i ≤ nx → ∀ n s, 1 ≤ s → s + n ≤ ny + 1 →
      ∀ v : ℤ, forRange s n (fun j v' => v' + g i j) v = v := by
    intro i hi1 hi2 n
    induction n with
    | zero => intro s _ _ v; rw [forRange]
    | succ n ih =>
      intro s hs1 hs2 v
      rw [forRange, ih (s + 1) (by omega) (by omega) _]
      rw [h i s hi1 hi2 hs1 (by omega), add_zero]
  have hout : ∀ n s, 1 ≤ s → s + n ≤ nx + 1 →
      ∀ v : ℤ, forRange s n (fun i v =>
        forRange 1 ny (fun j v' => v' + g i j) v) v = v := by
    intro n
    induction n with
    | zero => intro s _ _ v; rw [forRange]
    | succ n ih =>
      intro s hs1 hs2 v
      rw [forRange, ih (s + 1) (by omega) (by omega) _]
      rcases Nat.eq_zero_or_pos ny with hny | hny
      · subst hny; rw [forRange]
      · rw [hin s hs1 (by omega) ny 1 (by omega) (by omega) v]
  exact hout nx 1 (by omega) (by omega) 0

/-- The decay clamp written with `max`. -/
theorem clampDown_eq (v : ℤ) : (if v - 1 < 0 then 0 else v - 1) = max (v - 1) 0 := by
  rw [max_def]
  split_ifs <;> omega

/-- The growth clamp written with `min`. -/
theorem clampUp_eq (v : ℤ) : (if 10 < v + 1 then 10 else v + 1) = min (v + 1) 10 := by
  rw [min_def]
  split_ifs <;> omega

/-- `updatedCellValue` is the claimed threshold rule applied to the cell and
its raw 8-neighbour sum. -/
theorem updatedCellValue_eq_cellRule (g : Grid) (i j : ℕ) :
    updatedCellValue g i j =
      cellRule (g i j) (g (i-1) (j-1) + g (i-1) j + g (i-1) (j+1) + g i (j-1)
        + g i (j+1) + g (i+1) (j-1) + g (i+1) j + g (i+1) (j+1)) := by
  rw [updatedCellValue, cellRule]
  rw [clampDown_eq, clampUp_eq]

/-- Each interior cell of the grid after a non-converging loop body is the
threshold rule applied to the old cell and its toroidal 8-neighbour sum, and
coincides with the scratch-buffer value that was copied back. -/
theorem glBody_grid_interior (nx ny maxUnchanged : ℕ) (s : GLState) (i j : ℕ)
    (hi1 : 1 ≤ i) (hi2 : i ≤ nx) (hj1 : 1 ≤ j) (hj2 : j ≤ ny)
    (h : (glBody nx ny maxUnchanged s).converged = false) :
    (glBody nx ny maxUnchanged s).grid i j =
      cellRule (s.grid i j) (toroidalNeighborSum s.grid nx ny i j) ∧
    (glBody nx ny maxUnchanged s).grid i j =
      (glBody nx ny maxUnchanged s).tempGrid i j := by
  have hnx : 1 ≤ nx := le_trans hi1 hi2
  have hny : 1 ≤ ny := le_trans hj1 hj2
  rw [glBody_run nx ny maxUnchanged s h]
  dsimp only
  rw [copyBack_apply, if_pos ⟨hi1, by omega, hj1, by omega⟩]
  rw [computeTempGrid_apply, if_pos ⟨hi1, by omega, hj1, by omega⟩]
  refine ⟨?_, rfl⟩
  rw [toroidalNeighborSum, updatedCellValue_eq_cellRule]
  have hg2 : ∀ a b, a ≤ nx + 1 → b ≤ ny + 1 →
      wrapCols (wrapRows s.grid nx ny) nx ny a b
        = s.grid (wrapIdx nx a) (wrapIdx ny b) := fun a b ha hb =>
    wrapGhost_apply s.grid nx ny hnx hny a b ha hb
  rw [hg2 (i-1) (j-1) (by omega) (by omega), hg2 (i-1) j (by omega) (by omega),
    hg2 (i-1) (j+1) (by omega) (by omega), hg2 i (j-1) (by omega) (by omega),
    hg2 i (j+1) (by omega) (by omega), hg2 (i+1) (j-1) (by omega) (by omega),
    hg2 (i+1) j (by omega) (by omega), hg2 (i+1) (j+1) (by omega) (by omega),
    hg2 i j (by omega) (by omega)]
  rw [wrapIdx_interior nx i hi1 hi2, wrapIdx_interior ny j hj1 hj2]

/-- A run started on a grid with all-zero interior performs exactly one
update step and exits extinct: it returns `steps = 2` and vegetation `0`
whenever `maxSteps ≥ 2`. -/
theorem gameOfLife_allZero (g : Grid) (nx ny maxSteps maxUnchanged : ℕ)
    (hnx : 1 ≤ nx) (hny : 1 ≤ ny) (hms : 2 ≤ maxSteps)
    (hz : ∀ i j, 1 ≤ i → i ≤ nx → 1 ≤ j → j ≤ ny → g i j = 0) :
    gameOfLife g nx ny maxSteps maxUnchanged = (2, 0) := by
  obtain ⟨k, rfl⟩ : ∃ k, maxSteps = k + 2 := ⟨maxSteps - 2, by omega⟩
  have hv : countVegies g nx ny = 0 := countVegies_zero g nx ny hz
  rw [gameOfLife, gameOfLifeFull]
  set s0 : GLState :=
    { steps := 1, converged := false, nUnchanged := 0, oldVegies := -1,
      old2Vegies := -1, old3Vegies := -1, vegies := 1, grid := g,
      tempGrid := fun _ _ => 0 } with hs0
  have hsg : countVegies s0.grid nx ny = 0 := hv
  have hconv : (glBody nx ny maxUnchanged s0).converged = false := by
    rw [glBody_converged_eq, hsg]
    norm_num [hs0]
  have hrun := glBody_run nx ny maxUnchanged s0 hconv
  have hvg : (glBody nx ny maxUnchanged s0).vegies = 0 := by
    rw [hrun]
    exact hsg
  have hst : (glBody nx ny maxUnchanged s0).steps = 2 := by
    rw [hrun]
  rw [glLoop_succ, if_pos ⟨rfl, by show (0:ℤ) < 1; norm_num, by show 1 < k + 2; omega⟩]
  rw [glLoop_succ, if_neg (by simp [hvg])]
  rw [hst, hvg]

/-- Each drained result increments exactly one of the three counters. -/
theorem recordResult_counter_sum (maxSteps : ℕ) (t : RunTotals) (r : ℕ × ℤ) :
    (recordResult maxSteps t r).ndied + (recordResult maxSteps t r).nunsettled
      + (recordResult maxSteps t r).nstable
      = t.ndied + t.nunsettled + t.nstable + 1 := by
  rw [recordResult]
  split_ifs <;> dsimp only <;> omega

/-- Folding the classifier over a result list adds the list length to the
counter sum. -/
theorem foldl_recordResult_sum (maxSteps : ℕ) :
    ∀ (rs : List (ℕ × ℤ)) (t : RunTotals),
      (rs.foldl (recordResult maxSteps) t).ndied
        + (rs.foldl (recordResult maxSteps) t).nunsettled
        + (rs.foldl (recordResult maxSteps) t).nstable
      = t.ndied + t.nunsettled + t.nstable + rs.length := by
  intro rs
  induction rs with
  | nil => intro t; simp
  | cons r rs ih =>
    intro t
    rw [List.foldl_cons, ih (recordResult maxSteps t r), recordResult_counter_sum]
    rw [List.length_cons]
    omega

/-- A `forRange` whose body appends exactly one element to the second
component grows it by the iteration count. -/
theorem forRange_snd_length {β : Type} (B : ℕ → β × List (ℕ × ℤ) → β × List (ℕ × ℤ))
    (hB : ∀ x p, ((B x p).2).length = p.2.length + 1) :
    ∀ n s p, ((forRange s n B p).2).length = p.2.length + n := by
  intro n
  induction n with
  | zero => intro s p; rw [forRange, Nat.add_zero]
  | succ n ih =>
    intro s p
    rw [forRange, ih (s + 1) (B s p), hB s p]
    omega

/-- A worker emits exactly `mySims` results. -/
theorem worker_length (nx ny maxSteps maxUnchanged : ℕ) (prob : ℚ) (seed0 : ℤ)
    (mySims myProcess : ℕ) :
    (worker nx ny maxSteps maxUnchanged prob seed0 mySims myProcess).length
      = mySims := by
  rw [worker]
  rw [forRange_snd_length _ (fun x p => by simp) mySims 0 _]
  simp

/-- `main` drains exactly `numProcesses * (nsims / numProcesses)` results. -/
theorem mainResults_length (nx ny maxSteps maxUnchanged : ℕ) (prob : ℚ)
    (seed0 : ℤ) (nsims numProcesses : ℕ) :
    (mainResults nx ny maxSteps maxUnchanged prob seed0 nsims numProcesses).length
      = numProcesses * (nsims / numProcesses) := by
  rw [mainResults]
  have hgen : ∀ (l : List ℕ) (acc : List (ℕ × ℤ)),
      (l.foldl (fun acc i => acc ++ worker nx ny maxSteps maxUnchanged prob seed0
        (nsims / numProcesses) (i + 1)) acc).length
      = acc.length + l.length * (nsims / numProcesses) := by
    intro l
    induction l with
    | nil => intro acc; simp
    | cons x l ih =>
      intro acc
      rw [List.foldl_cons, ih, List.length_append, worker_length, List.length_cons]
      ring
  rw [hgen]
  simp [Nat.mul_comm]

/-- If no result was classified as stabilized, the stable accumulators never
moved. -/
theorem foldl_nstable_zero (maxSteps : ℕ) :
    ∀ (rs : List (ℕ × ℤ)) (t : RunTotals),
      (rs.foldl (recordResult maxSteps) t).nstable = 0 →
      (rs.foldl (recordResult maxSteps) t).totalStepsStable = t.totalStepsStable
        ∧ (rs.foldl (recordResult maxSteps) t).totalVegiesStable = t.totalVegiesStable
        ∧ t.nstable = 0 := by
  intro rs
  induction rs with
  | nil => intro t h; exact ⟨rfl, rfl, h⟩
  | cons r rs ih =>
    intro t h
    rw [List.foldl_cons] at h ⊢
    obtain ⟨h1, h2, h3⟩ := ih (recordResult maxSteps t r) h
    by_cases hd : r.2 = 0
    · have e : recordResult maxSteps t r = { t with ndied := t.ndied + 1 } := by
        rw [recordResult, if_pos hd]
      rw [e] at h1 h2 h3 ⊢
      exact ⟨h1, h2, h3⟩
    · by_cases hu : maxSteps ≤ r.1
      · have e : recordResult maxSteps t r = { t with nunsettled := t.nunsettled + 1 } := by
          rw [recordResult, if_neg hd, if_pos hu]
        rw [e] at h1 h2 h3 ⊢
        exact ⟨h1, h2, h3⟩
      · have e : recordResult maxSteps t r =
            { t with
              nstable := t.nstable + 1
              totalStepsStable := t.totalStepsStable + (r.1 : ℚ)
              totalVegiesStable := t.totalVegiesStable + (r.2 : ℚ) } := by
          rw [recordResult, if_neg hd, if_neg hu]
        rw [e] at h3
        exact absurd h3 (Nat.succ_ne_zero t.nstable)

/-- Claim C1, counterexample: in the reference scenario (nx=ny=3,
probability=0, seed0=1), the first dispatched trial (worker 1, local trial 0,
derived seed 2) does not return `steps = 1`: the loop body still executes one
update step on the extinct grid before the guard sees zero vegetation, so the
returned step count is 2. -/
theorem c1_steps_one_refuted :
    (gameOfLife (initializeGrid (fun _ _ => 0) 3 3 2 0) 3 3 200 10).1 ≠ 1 := by
  with_unfolding_all decide

/-- Claim C1 (amended): every trial whose grid initializes to all zeros
terminates as EXTINCT after one update step, returning `steps = 2` (not 1)
and `finalVegetation = 0`; in the scenario nx=ny=3, probability=0, seed0=1,
nsims=4, numProcesses=2 all four trials return (2, 0), and the aggregate
reports percentDied = 100% with the unsettled and stabilized percentages 0. -/
theorem prob_zero_trials_extinct :
    (∀ (g : Grid) (nx ny maxSteps maxUnchanged : ℕ),
      1 ≤ nx → 1 ≤ ny → 2 ≤ maxSteps →
      (∀ i j, 1 ≤ i → i ≤ nx → 1 ≤ j → j ≤ ny → g i j = 0) →
      gameOfLife g nx ny maxSteps maxUnchanged = (2, 0))
    ∧ worker 3 3 200 10 0 1 2 1 = [(2, 0), (2, 0)]
    ∧ worker 3 3 200 10 0 1 2 2 = [(2, 0), (2, 0)]
    ∧ mainAgg 3 3 200 10 0 1 4 2 = ⟨4, 0, 0, 0, 0⟩
    ∧ mainStats 3 3 200 10 0 1 4 2 = (100, 0, 0, 0, 0) := by
  refine ⟨fun g nx ny maxSteps maxUnchanged h1 h2 h3 h4 =>
    gameOfLife_allZero g nx ny maxSteps maxUnchanged h1 h2 h3 h4, ?_, ?_, ?_, ?_⟩
  · with_unfolding_all decide
  · with_unfolding_all decide
  · with_unfolding_all decide
  · with_unfolding_all decide

/-- Witness for the amended claim C1 at the concrete all-zero 3x3 grid. -/
theorem prob_zero_trials_extinct_check :
    (∀ i j : ℕ, 1 ≤ i → i ≤ 3 → 1 ≤ j → j ≤ 3 → (fun _ _ => (0:ℤ)) i j = 0)
    ∧ gameOfLife (fun _ _ => 0) 3 3 200 10 = (2, 0) :=
  ⟨fun _ _ _ _ _ _ => rfl,
   prob_zero_trials_extinct.1 (fun _ _ => 0) 3 3 200 10 (by decide) (by decide)
     (by decide) (fun _ _ _ _ _ _ => rfl)⟩

/-- Claim C2, counterexample: with nsims = 3 and numProcesses = 2 (grid 1x1,
probability 0, seed0 1, the default step caps) only 2 trials are dispatched,
so the drained counters sum to 2, not nsims = 3. -/
theorem c2_sum_eq_nsims_refuted :
    (mainAgg 1 1 200 10 0 1 3 2).ndied + (mainAgg 1 1 200 10 0 1 3 2).nunsettled
      + (mainAgg 1 1 200 10 0 1 3 2).nstable ≠ 3 := by
  with_unfolding_all decide

/-- The three counters sum to the number of dispatched trials. -/
theorem mainAgg_counter_sum (nx ny maxSteps maxUnchanged : ℕ)
    (prob : ℚ) (seed0 : ℤ) (nsims numProcesses : ℕ) :
    (mainAgg nx ny maxSteps maxUnchanged prob seed0 nsims numProcesses).ndied
      + (mainAgg nx ny maxSteps maxUnchanged prob seed0 nsims numProcesses).nunsettled
      + (mainAgg nx ny maxSteps maxUnchanged prob seed0 nsims numProcesses).nstable
      = numProcesses * (nsims / numProcesses) := by
  rw [mainAgg, foldl_recordResult_sum, mainResults_length]
  simp [initialTotals]

/-- Claim C2 (amended): after the orchestrator drains and classifies all
worker results, ndied + nunsettled + nstable equals the number of dispatched
trials, `numProcesses * (nsims // numProcesses)`; this equals nsims exactly
when numProcesses divides nsims. -/
theorem counters_sum_eq_dispatched (nx ny maxSteps maxUnchanged : ℕ)
    (prob : ℚ) (seed0 : ℤ) (nsims numProcesses : ℕ) :
    ((mainAgg nx ny maxSteps maxUnchanged prob seed0 nsims numProcesses).ndied
      + (mainAgg nx ny maxSteps maxUnchanged prob seed0 nsims numProcesses).nunsettled
      + (mainAgg nx ny maxSteps maxUnchanged prob seed0 nsims numProcesses).nstable
      = numProcesses * (nsims / numProcesses))
    ∧ (numProcesses ∣ nsims →
      (mainAgg nx ny maxSteps maxUnchanged prob seed0 nsims numProcesses).ndied
        + (mainAgg nx ny maxSteps maxUnchanged prob seed0 nsims numProcesses).nunsettled
        + (mainAgg nx ny maxSteps maxUnchanged prob seed0 nsims numProcesses).nstable
      = nsims) := by
  have hsum := mainAgg_counter_sum nx ny maxSteps maxUnchanged prob seed0 nsims numProcesses
  exact ⟨hsum, fun hd => hsum.trans (Nat.mul_div_cancel' hd)⟩

/-- Witness for the amended claim C2 with numProcesses dividing nsims. -/
theorem counters_sum_eq_dispatched_check :
    (2 ∣ 4)
    ∧ ((mainAgg 1 1 200 10 0 1 4 2).ndied + (mainAgg 1 1 200 10 0 1 4 2).nunsettled
        + (mainAgg 1 1 200 10 0 1 4 2).nstable = 4) :=
  ⟨by decide, (counters_sum_eq_dispatched 1 1 200 10 0 1 4 2).2 (by decide)⟩

/-- Claim C3: each worker is assigned `nsims // numProcesses` trials, so
exactly `nsims - (nsims mod numProcesses)` trials are run and classified (the
remainder is silently dropped), yet the three final percentages are computed
by dividing the counts by the original nsims. -/
theorem dropped_trials_percentages (nx ny maxSteps maxUnchanged : ℕ)
    (prob : ℚ) (seed0 : ℤ) (nsims numProcesses : ℕ) (h : 1 ≤ numProcesses) :
    ((mainAgg nx ny maxSteps maxUnchanged prob seed0 nsims numProcesses).ndied
      + (mainAgg nx ny maxSteps maxUnchanged prob seed0 nsims numProcesses).nunsettled
      + (mainAgg nx ny maxSteps maxUnchanged prob seed0 nsims numProcesses).nstable
      = nsims - nsims % numProcesses)
    ∧ (mainStats nx ny maxSteps maxUnchanged prob seed0 nsims numProcesses).1
      = 100 * ((mainAgg nx ny maxSteps maxUnchanged prob seed0 nsims numProcesses).ndied : ℚ)
        / (nsims : ℚ)
    ∧ (mainStats nx ny maxSteps maxUnchanged prob seed0 nsims numProcesses).2.1
      = 100 * ((mainAgg nx ny maxSteps maxUnchanged prob seed0 nsims numProcesses).nunsettled : ℚ)
        / (nsims : ℚ)
    ∧ (mainStats nx ny maxSteps maxUnchanged prob seed0 nsims numProcesses).2.2.1
      = 100 * ((mainAgg nx ny maxSteps maxUnchanged prob seed0 nsims numProcesses).nstable : ℚ)
        / (nsims : ℚ) := by
  refine ⟨?_, rfl, rfl, rfl⟩
  rw [mainAgg_counter_sum nx ny maxSteps maxUnchanged prob seed0 nsims numProcesses]
  have := Nat.div_add_mod nsims numProcesses
  omega

/-- Witness for claim C3 at nsims = 3, numProcesses = 2 (remainder dropped). -/
theorem dropped_trials_percentages_check :
    (1 ≤ 2)
    ∧ (((mainAgg 1 1 200 10 0 1 3 2).ndied + (mainAgg 1 1 200 10 0 1 3 2).nunsettled
        + (mainAgg 1 1 200 10 0 1 3 2).nstable = 3 - 3 % 2)
      ∧ (mainStats 1 1 200 10 0 1 3 2).1
        = 100 * ((mainAgg 1 1 200 10 0 1 3 2).ndied : ℚ) / (3 : ℚ)
      ∧ (mainStats 1 1 200 10 0 1 3 2).2.1
        = 100 * ((mainAgg 1 1 200 10 0 1 3 2).nunsettled : ℚ) / (3 : ℚ)
      ∧ (mainStats 1 1 200 10 0 1 3 2).2.2.1
        = 100 * ((mainAgg 1 1 200 10 0 1 3 2).nstable : ℚ) / (3 : ℚ)) :=
  ⟨by decide, dropped_trials_percentages 1 1 200 10 0 1 3 2 (by decide)⟩

/-- Claim C4: the update loop indexes `tempGrid[i][j]` for `1 ≤ i ≤ nx`,
`1 ≤ j ≤ ny`, but `tempGrid` is only `MAX_Y x MAX_X` = 500 x 500 (valid
indices 0..499), so at the documented maximum nx = ny = 500 the very first
update step goes out of bounds (`tempGrid[1][500]`), while every access is in
bounds for dimensions up to 499. -/
theorem tempGrid_bounds_overflow :
    ¬ gameOfLifeAccessesInBounds 500 500 ∧ gameOfLifeAccessesInBounds 499 499 := by
  constructor <;> decide

/-- Claim C5: `rand1` is a pure function of its seed, but its result does not
always lie in [0, 1): at the reachable seed `-1` (derivable from a negative
seed0) the returned value is `-1144108930 / 2147483647 < 0`, contradicting
the function's own docstring ("a float between 0 and 1"). -/
theorem rand1_negative_on_negative_seed : rand1 (-1) < 0 := by
  with_unfolding_all decide

/-- Claim C10: when `maxSteps <= 1` the while guard `steps < maxSteps` fails
immediately (`steps` starts at 1), so `gameOfLife` returns the sentinel pair
(1, 1) without reading the grid: the reported vegetation is the internal
initial value 1, never 0, even on an all-zero grid. -/
theorem gameOfLife_step_cap_sentinel (g : Grid) (nx ny maxSteps maxUnchanged : ℕ)
    (h : maxSteps ≤ 1) :
    gameOfLife g nx ny maxSteps maxUnchanged = (1, 1) := by
  rcases Nat.le_one_iff_eq_zero_or_eq_one.mp h with rfl | rfl <;> rfl

/-- Witness for claim C10 on an all-zero grid with maxSteps = 1. -/
theorem gameOfLife_step_cap_sentinel_check :
    (1 ≤ 1) ∧ gameOfLife (fun _ _ => 0) 3 3 1 10 = (1, 1) :=
  ⟨by decide, gameOfLife_step_cap_sentinel (fun _ _ => 0) 3 3 1 10 (by decide)⟩

/-- Claim C6: in every executed (non-converging) simulation step, each
interior cell becomes `cellRule` of its old value and its 8-neighbour
toroidal sum taken over the old grid only (the ghost copies merely reflect
old interior cells), and the new value is exactly the scratch-buffer
(`tempGrid`) entry that was copied back, so there is no read-after-write
hazard. -/
theorem update_rule_per_cell (nx ny maxUnchanged : ℕ) (s : GLState) (i j : ℕ)
    (hi1 : 1 ≤ i) (hi2 : i ≤ nx) (hj1 : 1 ≤ j) (hj2 : j ≤ ny)
    (h : (glBody nx ny maxUnchanged s).converged = false) :
    (glBody nx ny maxUnchanged s).grid i j
      = cellRule (s.grid i j) (toroidalNeighborSum s.grid nx ny i j)
    ∧ (glBody nx ny maxUnchanged s).grid i j
      = (glBody nx ny maxUnchanged s).tempGrid i j :=
  glBody_grid_interior nx ny maxUnchanged s i j hi1 hi2 hj1 hj2 h

/-- Witness for claim C6 at the centre cell of a concrete 3x3 state. -/
theorem update_rule_per_cell_check :
    (glBody 3 3 10 sampleState).converged = false
    ∧ ((glBody 3 3 10 sampleState).grid 2 2
        = cellRule (sampleState.grid 2 2) (toroidalNeighborSum sampleState.grid 3 3 2 2)
      ∧ (glBody 3 3 10 sampleState).grid 2 2
        = (glBody 3 3 10 sampleState).tempGrid 2 2) :=
  ⟨by decide,
   update_rule_per_cell 3 3 10 sampleState 2 2 (by decide) (by decide) (by decide)
     (by decide) (by decide)⟩

/-- Claim C7: in each executed step the new total vegetation is compared with
the three previous totals; on a match the unchanged-streak counter is
incremented, otherwise it resets to 0; CONVERGED is raised exactly when a
match occurs and the incremented streak reaches maxUnchanged; and the loop
continues (with fuel left) exactly while vegetation is positive and
`steps < maxSteps`. -/
theorem convergence_window_and_guard (nx ny maxSteps maxUnchanged : ℕ)
    (s : GLState) (h : s.converged = false) :
    ((glBody nx ny maxUnchanged s).nUnchanged =
      if countVegies s.grid nx ny = s.oldVegies
          ∨ countVegies s.grid nx ny = s.old2Vegies
          ∨ countVegies s.grid nx ny = s.old3Vegies
      then s.nUnchanged + 1 else 0)
    ∧ ((glBody nx ny maxUnchanged s).converged = true ↔
      ((countVegies s.grid nx ny = s.oldVegies
          ∨ countVegies s.grid nx ny = s.old2Vegies
          ∨ countVegies s.grid nx ny = s.old3Vegies)
        ∧ maxUnchanged ≤ s.nUnchanged + 1))
    ∧ (∀ fuel, glLoop nx ny maxSteps maxUnchanged (fuel + 1) s =
        if 0 < s.vegies ∧ s.steps < maxSteps
        then glLoop nx ny maxSteps maxUnchanged fuel (glBody nx ny maxUnchanged s)
        else s) := by
  refine ⟨glBody_nUnchanged_eq nx ny maxUnchanged s, ?_, ?_⟩
  · rw [glBody_converged_eq]
    split_ifs with h1 h2 <;> simp_all
  · intro fuel
    rw [glLoop_succ]
    simp [h]

/-- Witness for claim C7 at a concrete state. -/
theorem convergence_window_and_guard_check :
    sampleState2.converged = false
    ∧ (((glBody 3 3 3 sampleState2).nUnchanged =
        if countVegies sampleState2.grid 3 3 = sampleState2.oldVegies
            ∨ countVegies sampleState2.grid 3 3 = sampleState2.old2Vegies
            ∨ countVegies sampleState2.grid 3 3 = sampleState2.old3Vegies
        then sampleState2.nUnchanged + 1 else 0)
      ∧ ((glBody 3 3 3 sampleState2).converged = true ↔
        ((countVegies sampleState2.grid 3 3 = sampleState2.oldVegies
            ∨ countVegies sampleState2.grid 3 3 = sampleState2.old2Vegies
            ∨ countVegies sampleState2.grid 3 3 = sampleState2.old3Vegies)
          ∧ 3 ≤ sampleState2.nUnchanged + 1))
      ∧ (∀ fuel, glLoop 3 3 200 3 (fuel + 1) sampleState2 =
          if 0 < sampleState2.vegies ∧ sampleState2.steps < 200
          then glLoop 3 3 200 3 fuel (glBody 3 3 3 sampleState2)
          else sampleState2)) :=
  ⟨rfl, convergence_window_and_guard 3 3 200 3 sampleState2 rfl⟩

/-- Claim C8, counterexample: with probability 0 the interior cell is not
always 0 for every integer seed: at nx = ny = 1, seed = -2 the derived cell
seed is `-2 + (1*1 + 1) = 0`, `rand1 0 = 0` is not greater than 0, and the
cell is set to 1. -/
theorem c8_prob_zero_all_zero_refuted :
    initializeGrid (fun _ _ => 0) 1 1 (-2) 0 1 1 ≠ 0 := by
  with_unfolding_all decide

/-- Claim C8 (amended): after `initializeGrid`, every interior cell (i,j)
equals 1 when `rand1(seed + ny*i + j) <= probability` and 0 otherwise, and
cells outside the interior are untouched; for probability 1 every interior
cell is 1 for every integer seed; for probability 0 an interior cell is 0
whenever its derived `rand1` value is strictly positive, which holds whenever
the derived cell seed lies strictly between 0 and 2147483647 (but can fail
for seeds making a cell seed zero, negative, or a multiple of 2147483647). -/
theorem initializeGrid_cell_spec (g : Grid) (nx ny : ℕ) (seed : ℤ) (prob : ℚ)
    (i j a b : ℕ) (hi1 : 1 ≤ i) (hi2 : i ≤ nx) (hj1 : 1 ≤ j) (hj2 : j ≤ ny)
    (hout : ¬(1 ≤ a ∧ a ≤ nx ∧ 1 ≤ b ∧ b ≤ ny)) :
    (initializeGrid g nx ny seed prob i j
      = if rand1 (seed + (ny * i + j : ℕ)) ≤ prob then 1 else 0)
    ∧ initializeGrid g nx ny seed prob a b = g a b
    ∧ (prob = 1 → initializeGrid g nx ny seed prob i j = 1)
    ∧ (prob = 0 → 0 < rand1 (seed + (ny * i + j : ℕ)) →
        initializeGrid g nx ny seed prob i j = 0)
    ∧ (∀ z : ℤ, 0 < z → z < 2147483647 → 0 < rand1 z) := by
  have hmain : initializeGrid g nx ny seed prob i j = initCellValue ny seed prob i j := by
    rw [initializeGrid_apply, if_pos ⟨hi1, by omega, hj1, by omega⟩]
  refine ⟨?_, ?_, ?_, ?_, fun z h1 h2 => rand1_pos h1 h2⟩
  · rw [hmain, initCellValue]
    split_ifs with h1 h2 <;> first | rfl | linarith
  · rw [initializeGrid_apply, if_neg (by omega)]
  · intro hp
    rw [hmain, initCellValue, hp, if_neg (not_lt.mpr (rand1_lt_one _).le)]
  · intro hp hpos
    rw [hmain, initCellValue, hp, if_pos hpos]

/-- Witness for the amended claim C8 at concrete inputs. -/
theorem initializeGrid_cell_spec_check :
    (1 ≤ 1 ∧ 1 ≤ 2 ∧ 1 ≤ 2 ∧ 1 ≤ 2 ∧ ¬((1:ℕ) ≤ 0 ∧ 0 ≤ 2 ∧ 1 ≤ 0 ∧ 0 ≤ 2))
    ∧ ((initializeGrid (fun _ _ => 5) 2 2 0 (1/2) 1 1
        = if rand1 (0 + (2 * 1 + 1 : ℕ)) ≤ (1/2 : ℚ) then 1 else 0)
      ∧ initializeGrid (fun _ _ => 5) 2 2 0 (1/2) 0 0 = (fun _ _ => (5:ℤ)) 0 0
      ∧ ((1/2 : ℚ) = 1 → initializeGrid (fun _ _ => 5) 2 2 0 (1/2) 1 1 = 1)
      ∧ ((1/2 : ℚ) = 0 → 0 < rand1 (0 + (2 * 1 + 1 : ℕ)) →
          initializeGrid (fun _ _ => 5) 2 2 0 (1/2) 1 1 = 0)
      ∧ (∀ z : ℤ, 0 < z → z < 2147483647 → 0 < rand1 z)) :=
  ⟨by decide,
   initializeGrid_cell_spec (fun _ _ => 5) 2 2 0 (1/2) 1 1 0 0 (by decide) (by decide)
     (by decide) (by decide) (by decide)⟩

/-- Claim C9: the stabilized averages divide the accumulated sums only by the
stabilized-trial count, and with zero stabilized trials the division is
guarded: the accumulators are provably still 0 and the reported averages are
the safe default (0, 0) rather than a division by zero. -/
theorem stable_averages_guarded (maxSteps : ℕ) (rs : List (ℕ × ℤ)) :
    ((rs.foldl (recordResult maxSteps) initialTotals).nstable = 0 →
      stableAverages (rs.foldl (recordResult maxSteps) initialTotals) = (0, 0))
    ∧ (0 < (rs.foldl (recordResult maxSteps) initialTotals).nstable →
      stableAverages (rs.foldl (recordResult maxSteps) initialTotals)
        = ((rs.foldl (recordResult maxSteps) initialTotals).totalStepsStable
            / ((rs.foldl (recordResult maxSteps) initialTotals).nstable : ℚ),
           (rs.foldl (recordResult maxSteps) initialTotals).totalVegiesStable
            / ((rs.foldl (recordResult maxSteps) initialTotals).nstable : ℚ))) := by
  constructor
  · intro h
    obtain ⟨e1, e2, -⟩ := foldl_nstable_zero maxSteps rs initialTotals h
    have hno : ¬ 0 < (rs.foldl (recordResult maxSteps) initialTotals).nstable := by
      rw [h]
      exact lt_irrefl 0
    rw [stableAverages, if_neg hno, e1, e2]
    rfl
  · intro h
    rw [stableAverages, if_pos h]

/-- Witness for claim C9 on a result list with no stabilized trial. -/
theorem stable_averages_guarded_check :
    (([((5:ℕ), (0:ℤ))].foldl (recordResult 200) initialTotals).nstable = 0)
    ∧ stableAverages ([((5:ℕ), (0:ℤ))].foldl (recordResult 200) initialTotals) = (0, 0) :=
  ⟨by decide, (stable_averages_guarded 200 [(5, 0)]).1 (by decide)⟩
